import Mathlib

/-!
# Verification of the Telegram demo bot (`src/bot.py`)

A shallow embedding of the program's core: the `RateLimiter` class, the
`DataManager` state, the `admin_only` decorator, and the callback-dispatch
table registered in `main()`, together with proofs about the claims of the
specification.

Modelling conventions:
* time instants are `Nat` (abstract seconds, matching the second-granularity
  `time_window` of the Python code);
* Python `dict`s keyed by user id are total functions from `Nat` together
  with an explicit list of materialised keys (a `defaultdict` materialises a
  key on first index access, and iteration such as `.values()` ranges over
  materialised keys only);
* product/service identifiers parsed by `int(...)` are `Int`;
* tokens (command names and callback payloads) are `List Char`;
* the outbound side (message texts, keyboards, logging) is abstracted into an
  `Effect` trace whose constructors record which reply primitive the code
  invoked and with which data-relevant payload; literal display text is out of
  scope per the specification.
-/

/-! ## RateLimiter (src/bot.py lines 49-71) -/

/-- State of the Python `RateLimiter` object: `self.requests` is a
`defaultdict(list)` from user id to the list of retained request instants
(in append order), `self.max_requests` and `self.time_window` are the
constructor parameters (defaults 10 and 60). -/
structure RateLimiter where
  requests : Nat → List Nat
  max_requests : Nat
  time_window : Nat

/-- The eviction comprehension of `is_allowed`:
`[t for t in user_requests if now - t < timedelta(seconds=time_window)]`. -/
def evictOld (now window : Nat) (l : List Nat) : List Nat :=
  l.filter (fun t => decide (now - t < window))

/-- `RateLimiter.is_allowed` (lines 56-71): evict entries whose age reached
the window, then reject if the remaining count is at or above the limit,
otherwise append the current instant and accept.  The eviction is persisted
in both branches (the Python code mutates the list in place). -/
def RateLimiter.is_allowed (rl : RateLimiter) (user_id : Nat) (now : Nat) :
    Bool × RateLimiter :=
  let kept := evictOld now rl.time_window (rl.requests user_id)
  if rl.max_requests ≤ kept.length then
    (false, { rl with requests := fun v => if v = user_id then kept else rl.requests v })
  else
    (true, { rl with requests := fun v => if v = user_id then kept ++ [now] else rl.requests v })

/-- Run a sequence of `is_allowed` calls for user `u` at the given instants,
collecting the returned booleans and the final limiter state. -/
def RateLimiter.runCalls (rl : RateLimiter) (u : Nat) : List Nat → List Bool × RateLimiter
  | [] => ([], rl)
  | t :: ts =>
    let p := rl.is_allowed u t
    let q := p.2.runCalls u ts
    (p.1 :: q.1, q.2)

/-- The instants of the calls that were accepted (paired positionally with
the returned booleans). -/
def acceptedTimes : List Nat → List Bool → List Nat
  | t :: ts, b :: bs => if b then t :: acceptedTimes ts bs else acceptedTimes ts bs
  | _, _ => []

theorem acceptedTimes_all_true (ts : List Nat) :
    acceptedTimes ts (List.replicate ts.length true) = ts := by
  induction ts with
  | nil => rfl
  | cons t ts ih => simp [acceptedTimes, List.replicate, ih]

theorem evictOld_sub (now window : Nat) (l : List Nat) (t : Nat) :
    t ∈ evictOld now window l → t ∈ l := by
  intro h
  exact List.mem_of_mem_filter h

theorem evictOld_keeps_young (now window : Nat) (l : List Nat) (t : Nat)
    (ht : t ∈ l) (hy : now - t < window) : t ∈ evictOld now window l := by
  exact List.mem_filter.mpr ⟨ht, by simpa using hy⟩

/-! ### Step-level facts about `is_allowed` -/

theorem is_allowed_time_window (rl : RateLimiter) (u now : Nat) :
    ((rl.is_allowed u now).2).time_window = rl.time_window := by
  by_cases h : rl.max_requests ≤ (evictOld now rl.time_window (rl.requests u)).length <;>
    simp [RateLimiter.is_allowed, h]

theorem is_allowed_max_requests (rl : RateLimiter) (u now : Nat) :
    ((rl.is_allowed u now).2).max_requests = rl.max_requests := by
  by_cases h : rl.max_requests ≤ (evictOld now rl.time_window (rl.requests u)).length <;>
    simp [RateLimiter.is_allowed, h]

theorem is_allowed_requests_other (rl : RateLimiter) (u v now : Nat) (h : v ≠ u) :
    ((rl.is_allowed u now).2).requests v = rl.requests v := by
  by_cases hc : rl.max_requests ≤ (evictOld now rl.time_window (rl.requests u)).length <;>
    simp [RateLimiter.is_allowed, hc, h]

theorem is_allowed_reject (rl : RateLimiter) (u now : Nat)
    (h : rl.max_requests ≤ (evictOld now rl.time_window (rl.requests u)).length) :
    rl.is_allowed u now =
      (false, { rl with requests := fun v =>
        if v = u then evictOld now rl.time_window (rl.requests u) else rl.requests v }) := by
  unfold RateLimiter.is_allowed
  simp [h]

theorem is_allowed_accept (rl : RateLimiter) (u now : Nat)
    (h : ¬ rl.max_requests ≤ (evictOld now rl.time_window (rl.requests u)).length) :
    rl.is_allowed u now =
      (true, { rl with requests := fun v =>
        if v = u then evictOld now rl.time_window (rl.requests u) ++ [now] else rl.requests v }) := by
  unfold RateLimiter.is_allowed
  simp [h]

/-! ### Trace-level characterisation of the per-user request list -/

theorem filter_window_mono (W : Nat) (t T : Nat) (htT : t ≤ T) (l : List Nat) :
    (l.filter (fun a => decide (t - a < W))).filter (fun a => decide (T - a < W))
      = l.filter (fun a => decide (T - a < W)) := by
  rw [List.filter_filter]
  refine List.filter_congr ?_
  intro a _
  by_cases hTa : T - a < W
  · have hta : t - a < W := lt_of_le_of_lt (Nat.sub_le_sub_right htT a) hTa
    simp [hTa, hta]
  · simp [hTa]

theorem getLast?_mem_of_eq {α : Type} {l : List α} {a : α} (h : l.getLast? = some a) :
    a ∈ l := by
  induction l with
  | nil => simp at h
  | cons x xs ih =>
    cases xs with
    | nil => simp at h; simp [h]
    | cons y ys =>
      rw [List.getLast?_cons_cons] at h
      exact List.mem_cons_of_mem _ (ih h)

theorem acceptedTimes_cons_true (t : Nat) (ts : List Nat) (bs : List Bool) :
    acceptedTimes (t :: ts) (true :: bs) = t :: acceptedTimes ts bs := rfl

theorem acceptedTimes_cons_false (t : Nat) (ts : List Nat) (bs : List Bool) :
    acceptedTimes (t :: ts) (false :: bs) = acceptedTimes ts bs := rfl

theorem runCalls_cons (rl : RateLimiter) (u t : Nat) (ts : List Nat) :
    rl.runCalls u (t :: ts) =
      ((rl.is_allowed u t).1 :: ((rl.is_allowed u t).2.runCalls u ts).1,
        ((rl.is_allowed u t).2.runCalls u ts).2) := rfl

/-- After running a monotone sequence of calls for user `u`, the stored list
for `u` is exactly the previously stored entries together with the accepted
instants, filtered down to those still younger than the window at the final
instant `T`. -/
theorem runCalls_requests (u : Nat) (T : Nat) :
    ∀ (ts : List Nat) (rl : RateLimiter),
      0 < rl.time_window →
      List.Pairwise (· ≤ ·) ts →
      (∀ a ∈ rl.requests u, ∀ b ∈ ts, a ≤ b) →
      ts.getLast? = some T →
      (rl.runCalls u ts).2.requests u
        = ((rl.requests u) ++ acceptedTimes ts (rl.runCalls u ts).1).filter
            (fun t => decide (T - t < rl.time_window)) := by
  intro ts
  induction ts with
  | nil => intro rl _ _ _ hT; simp at hT
  | cons t ts ih =>
    intro rl hW hpair hbound hT
    have hpc := List.pairwise_cons.mp hpair
    by_cases hlim : rl.max_requests ≤ (evictOld t rl.time_window (rl.requests u)).length
    · -- the call at `t` is rejected
      rw [runCalls_cons, is_allowed_reject rl u t hlim]
      dsimp only
      rw [acceptedTimes_cons_false]
      cases ts with
      | nil =>
        have hTt : T = t := by simpa using hT.symm
        subst hTt
        simp [RateLimiter.runCalls, acceptedTimes, evictOld]
      | cons t' ts' =>
        rw [List.getLast?_cons_cons] at hT
        have htT : t ≤ T := hpc.1 T (getLast?_mem_of_eq hT)
        set rl1 : RateLimiter :=
          { rl with requests := fun v =>
              if v = u then evictOld t rl.time_window (rl.requests u) else rl.requests v }
          with hrl1
        have hreq1 : rl1.requests u = evictOld t rl.time_window (rl.requests u) := by
          rw [hrl1]; simp
        have hw1 : rl1.time_window = rl.time_window := rfl
        have hres := ih rl1 hW hpc.2 (by
          intro a ha b hb
          rw [hreq1] at ha
          exact hbound a (evictOld_sub _ _ _ _ ha) b (List.mem_cons_of_mem _ hb)) hT
        rw [hreq1] at hres
        rw [hres, hw1, List.filter_append, List.filter_append]
        unfold evictOld
        rw [filter_window_mono rl.time_window t T htT]
    · -- the call at `t` is accepted
      rw [runCalls_cons, is_allowed_accept rl u t hlim]
      dsimp only
      rw [acceptedTimes_cons_true]
      cases ts with
      | nil =>
        have hTt : T = t := by simpa using hT.symm
        subst hTt
        simp [RateLimiter.runCalls, acceptedTimes, evictOld, List.filter_append, hW]
      | cons t' ts' =>
        rw [List.getLast?_cons_cons] at hT
        have htT : t ≤ T := hpc.1 T (getLast?_mem_of_eq hT)
        set rl1 : RateLimiter :=
          { rl with requests := fun v =>
              if v = u then evictOld t rl.time_window (rl.requests u) ++ [t] else rl.requests v }
          with hrl1
        have hreq1 : rl1.requests u = evictOld t rl.time_window (rl.requests u) ++ [t] := by
          rw [hrl1]; simp
        have hw1 : rl1.time_window = rl.time_window := rfl
        have hres := ih rl1 hW hpc.2 (by
          intro a ha b hb
          rw [hreq1] at ha
          rcases List.mem_append.mp ha with h1 | h1
          · exact hbound a (evictOld_sub _ _ _ _ h1) b (List.mem_cons_of_mem _ hb)
          · simp at h1; subst h1; exact hpc.1 b hb) hT
        rw [hreq1, List.append_assoc, List.singleton_append] at hres
        rw [hres, hw1, List.filter_append, List.filter_append]
        unfold evictOld
        rw [filter_window_mono rl.time_window t T htT]

theorem runCalls_max_requests (u : Nat) :
    ∀ (ts : List Nat) (rl : RateLimiter),
      ((rl.runCalls u ts).2).max_requests = rl.max_requests := by
  intro ts
  induction ts with
  | nil => intro rl; rfl
  | cons t ts ih =>
    intro rl
    rw [runCalls_cons]
    exact (ih _).trans (is_allowed_max_requests rl u t)

theorem runCalls_time_window (u : Nat) :
    ∀ (ts : List Nat) (rl : RateLimiter),
      ((rl.runCalls u ts).2).time_window = rl.time_window := by
  intro ts
  induction ts with
  | nil => intro rl; rfl
  | cons t ts ih =>
    intro rl
    rw [runCalls_cons]
    exact (ih _).trans (is_allowed_time_window rl u t)

theorem runCalls_sorted (u : Nat) :
    ∀ (ts : List Nat) (rl : RateLimiter),
      List.Pairwise (· ≤ ·) (rl.requests u) →
      List.Pairwise (· ≤ ·) ts →
      (∀ a ∈ rl.requests u, ∀ b ∈ ts, a ≤ b) →
      List.Pairwise (· ≤ ·) ((rl.runCalls u ts).2.requests u) := by
  intro ts
  induction ts with
  | nil => intro rl hs _ _; exact hs
  | cons t ts ih =>
    intro rl hs hpair hbound
    have hpc := List.pairwise_cons.mp hpair
    by_cases hlim : rl.max_requests ≤ (evictOld t rl.time_window (rl.requests u)).length
    · rw [runCalls_cons, is_allowed_reject rl u t hlim]
      dsimp only
      refine ih _ (by simpa [evictOld] using hs.filter _) hpc.2 ?_
      intro a ha b hb
      simp only [if_pos rfl] at ha
      exact hbound a (evictOld_sub _ _ _ _ ha) b (List.mem_cons_of_mem _ hb)
    · rw [runCalls_cons, is_allowed_accept rl u t hlim]
      dsimp only
      refine ih _ ?_ hpc.2 ?_
      · have hpa : List.Pairwise (· ≤ ·) (evictOld t rl.time_window (rl.requests u) ++ [t]) := by
          rw [List.pairwise_append]
          refine ⟨by simpa [evictOld] using hs.filter _, List.pairwise_singleton _ _, ?_⟩
          intro a ha b hb
          simp at hb
          subst hb
          exact hbound a (evictOld_sub _ _ _ _ ha) _ (List.mem_cons_self _ _)
        simpa using hpa
      · intro a ha b hb
        simp only [if_pos rfl] at ha
        rcases List.mem_append.mp ha with h1 | h1
        · exact hbound a (evictOld_sub _ _ _ _ h1) b (List.mem_cons_of_mem _ hb)
        · simp at h1; subst h1; exact hpc.1 b hb

theorem runCalls_length (u : Nat) :
    ∀ (ts : List Nat) (rl : RateLimiter),
      (rl.requests u).length ≤ rl.max_requests →
      ((rl.runCalls u ts).2.requests u).length ≤ rl.max_requests := by
  intro ts
  induction ts with
  | nil => intro rl h; exact h
  | cons t ts ih =>
    intro rl h
    by_cases hlim : rl.max_requests ≤ (evictOld t rl.time_window (rl.requests u)).length
    · rw [runCalls_cons, is_allowed_reject rl u t hlim]
      dsimp only
      refine ih _ ?_
      simp only [if_pos rfl, evictOld]
      exact le_trans (List.length_filter_le _ _) h
    · rw [runCalls_cons, is_allowed_accept rl u t hlim]
      dsimp only
      refine ih _ ?_
      have hlen : (evictOld t rl.time_window (rl.requests u) ++ [t]).length ≤ rl.max_requests := by
        simp only [List.length_append, List.length_singleton]
        omega
      simpa using hlen

theorem is_allowed_false_of_big (rl : RateLimiter) (u now : Nat)
    (h : rl.max_requests ≤ (evictOld now rl.time_window (rl.requests u)).length) :
    (rl.is_allowed u now).1 = false := by
  rw [is_allowed_reject rl u now h]

theorem is_allowed_true_of_small (rl : RateLimiter) (u now : Nat)
    (h : (evictOld now rl.time_window (rl.requests u)).length < rl.max_requests) :
    (rl.is_allowed u now).1 = true := by
  rw [is_allowed_accept rl u now (by omega)]

theorem is_allowed_requests_self_reject (rl : RateLimiter) (u now : Nat)
    (h : rl.max_requests ≤ (evictOld now rl.time_window (rl.requests u)).length) :
    ((rl.is_allowed u now).2).requests u = evictOld now rl.time_window (rl.requests u) := by
  rw [is_allowed_reject rl u now h]
  simp

/-- C2: starting from a fresh user (the `defaultdict` default `[]`), after any
monotone sequence of `is_allowed` evaluations whose last instant is `T`, the
stored list for that user is exactly the accepted instants still younger than
the window at `T`, in ascending order, never longer than the limit; and the
eviction step never removes an entry younger than the window at evaluation
time. -/
theorem c2_window_invariant (rl : RateLimiter) (u : Nat) (ts : List Nat) (T : Nat)
    (hreq : rl.requests u = [])
    (hW : 0 < rl.time_window)
    (hpair : List.Pairwise (· ≤ ·) ts)
    (hT : ts.getLast? = some T) :
    (rl.runCalls u ts).2.requests u
        = (acceptedTimes ts (rl.runCalls u ts).1).filter
            (fun t => decide (T - t < rl.time_window))
    ∧ List.Pairwise (· ≤ ·) ((rl.runCalls u ts).2.requests u)
    ∧ ((rl.runCalls u ts).2.requests u).length ≤ rl.max_requests
    ∧ (∀ (l : List Nat) (now t : Nat), t ∈ l → now - t < rl.time_window →
        t ∈ evictOld now rl.time_window l) := by
  have hbound : ∀ a ∈ rl.requests u, ∀ b ∈ ts, a ≤ b := by rw [hreq]; simp
  refine ⟨?_, ?_, ?_, ?_⟩
  · have h := runCalls_requests u T ts rl hW hpair hbound hT
    rw [hreq] at h
    simpa using h
  · exact runCalls_sorted u ts rl (by rw [hreq]; exact List.Pairwise.nil) hpair hbound
  · exact runCalls_length u ts rl (by rw [hreq]; simp)
  · intro l now t ht hy
    exact evictOld_keeps_young now rl.time_window l t ht hy

theorem c2_window_invariant_witness :
    ((RateLimiter.mk (fun _ => []) 2 60).runCalls 42 [0, 30, 100]).2.requests 42
      = (acceptedTimes [0, 30, 100]
          ((RateLimiter.mk (fun _ => []) 2 60).runCalls 42 [0, 30, 100]).1).filter
          (fun t => decide (100 - t < 60))
    ∧ List.Pairwise (· ≤ ·) (((RateLimiter.mk (fun _ => []) 2 60).runCalls 42 [0, 30, 100]).2.requests 42)
    ∧ (((RateLimiter.mk (fun _ => []) 2 60).runCalls 42 [0, 30, 100]).2.requests 42).length ≤ 2
    ∧ 5 ∈ evictOld 10 60 [5] := by
  have h := c2_window_invariant (RateLimiter.mk (fun _ => []) 2 60) 42 [0, 30, 100] 100
    rfl (by decide) (by decide) (by decide)
  exact ⟨h.1, h.2.1, h.2.2.1, h.2.2.2 [5] 10 5 (by decide) (by decide)⟩

/-- C1: if `L` (= `max_requests`) monotone calls for user `u`, all within a
span shorter than the window, are all admitted, then the next call `s` within
the same span is rejected; and a further call `s'` more than a window after
`s` is admitted again.  The stored history before the `L` calls is arbitrary
(subject only to clock monotonicity). -/
theorem c1_rate_limit (rl : RateLimiter) (u : Nat) (ts : List Nat) (s s' T : Nat)
    (hpos : 0 < rl.max_requests)
    (hW : 0 < rl.time_window)
    (hlen : ts.length = rl.max_requests)
    (hpair : List.Pairwise (· ≤ ·) ts)
    (hbound : ∀ a ∈ rl.requests u, ∀ b ∈ ts, a ≤ b)
    (hT : ts.getLast? = some T)
    (hts : ∀ t ∈ ts, t ≤ s)
    (hspan : ∀ t ∈ ts, s - t < rl.time_window)
    (hacc : (rl.runCalls u ts).1 = List.replicate rl.max_requests true)
    (hwait : rl.time_window < s' - s) :
    (((rl.runCalls u ts).2).is_allowed u s).1 = false
    ∧ (((((rl.runCalls u ts).2).is_allowed u s).2).is_allowed u s').1 = true := by
  have hTmem := getLast?_mem_of_eq hT
  have hTs : T ≤ s := hts T hTmem
  have hWR := runCalls_time_window u ts rl
  have hMR := runCalls_max_requests u ts rl
  have hreqR := runCalls_requests u T ts rl hW hpair hbound hT
  rw [hacc, ← hlen, acceptedTimes_all_true] at hreqR
  have hftsT : ts.filter (fun t => decide (T - t < rl.time_window)) = ts := by
    rw [List.filter_eq_self]
    intro t htm
    simpa using lt_of_le_of_lt (Nat.sub_le_sub_right hTs t) (hspan t htm)
  have hftss : ts.filter (fun t => decide (s - t < rl.time_window)) = ts := by
    rw [List.filter_eq_self]
    intro t htm
    simpa using hspan t htm
  rw [List.filter_append, hftsT] at hreqR
  have hkept : evictOld s ((rl.runCalls u ts).2).time_window (((rl.runCalls u ts).2).requests u)
      = evictOld s rl.time_window
          ((rl.requests u).filter (fun t => decide (T - t < rl.time_window))) ++ ts := by
    rw [hWR, hreqR]
    unfold evictOld
    rw [List.filter_append, hftss]
  have hlim : ((rl.runCalls u ts).2).max_requests
      ≤ (evictOld s ((rl.runCalls u ts).2).time_window (((rl.runCalls u ts).2).requests u)).length := by
    rw [hMR, hkept, List.length_append, hlen]
    omega
  refine ⟨is_allowed_false_of_big _ u s hlim, ?_⟩
  have hreq2 := is_allowed_requests_self_reject _ u s hlim
  rw [hkept] at hreq2
  have hw2 : ((((rl.runCalls u ts).2).is_allowed u s).2).time_window = rl.time_window :=
    (is_allowed_time_window _ u s).trans hWR
  have hm2 : ((((rl.runCalls u ts).2).is_allowed u s).2).max_requests = rl.max_requests :=
    (is_allowed_max_requests _ u s).trans hMR
  refine is_allowed_true_of_small _ u s' ?_
  rw [hreq2, hw2, hm2]
  have hempty : evictOld s' rl.time_window
      (evictOld s rl.time_window
        ((rl.requests u).filter (fun t => decide (T - t < rl.time_window))) ++ ts) = [] := by
    unfold evictOld
    rw [List.filter_eq_nil_iff]
    intro a ha
    have has : a ≤ s := by
      rcases List.mem_append.mp ha with h1 | h1
      · have h2 : a ∈ rl.requests u :=
          List.mem_of_mem_filter (evictOld_sub _ _ _ _ h1)
        exact le_trans (hbound a h2 T hTmem) hTs
      · exact hts a h1
    have hge : rl.time_window < s' - a := lt_of_lt_of_le hwait (Nat.sub_le_sub_left has s')
    simp only [decide_eq_true_eq]
    omega
  rw [hempty]
  simpa using hpos

/-- Witness for C1: the spec scenario with limit 5 and window 60 for user 42:
five immediate calls all return `true`, a sixth immediate call returns
`false`, and a call 61 seconds later returns `true`. -/
theorem c1_rate_limit_witness :
    ((RateLimiter.mk (fun _ => []) 5 60).runCalls 42 [0, 0, 0, 0, 0]).1
        = List.replicate 5 true
    ∧ ((((RateLimiter.mk (fun _ => []) 5 60).runCalls 42 [0, 0, 0, 0, 0]).2).is_allowed 42 0).1 = false
    ∧ (((((RateLimiter.mk (fun _ => []) 5 60).runCalls 42 [0, 0, 0, 0, 0]).2).is_allowed 42 0).2.is_allowed
        42 61).1 = true := by
  have h := c1_rate_limit (RateLimiter.mk (fun _ => []) 5 60) 42 [0, 0, 0, 0, 0] 0 61 0
    (by decide) (by decide) (by decide) (by decide) (by simp) (by decide)
    (by decide) (by decide) (by decide) (by decide)
  exact ⟨by decide, h.1, h.2⟩

/-- C7: a call to `is_allowed` for user `u` mutates at most `u`'s own
timestamp list; and when it rejects, no new instant is recorded for `u` —
the list is only pruned by the eviction step, which removes nothing younger
than the window. -/
theorem c7_frame (rl : RateLimiter) (u v now : Nat) (hvu : v ≠ u) :
    ((rl.is_allowed u now).2).requests v = rl.requests v
    ∧ ((rl.is_allowed u now).2).max_requests = rl.max_requests
    ∧ ((rl.is_allowed u now).2).time_window = rl.time_window
    ∧ ((rl.is_allowed u now).1 = false →
        ((rl.is_allowed u now).2).requests u = evictOld now rl.time_window (rl.requests u)
        ∧ (∀ t ∈ ((rl.is_allowed u now).2).requests u, t ∈ rl.requests u)
        ∧ (∀ t ∈ rl.requests u, now - t < rl.time_window →
            t ∈ ((rl.is_allowed u now).2).requests u)) := by
  refine ⟨is_allowed_requests_other rl u v now hvu,
    is_allowed_max_requests rl u now, is_allowed_time_window rl u now, ?_⟩
  intro hfalse
  by_cases hlim : rl.max_requests ≤ (evictOld now rl.time_window (rl.requests u)).length
  · have hreq := is_allowed_requests_self_reject rl u now hlim
    refine ⟨hreq, ?_, ?_⟩
    · intro t ht
      rw [hreq] at ht
      exact evictOld_sub _ _ _ _ ht
    · intro t ht hy
      rw [hreq]
      exact evictOld_keeps_young _ _ _ _ ht hy
  · rw [is_allowed_accept rl u now hlim] at hfalse
    simp at hfalse

/-- Witness for C7 at a concrete rejecting call: user 1 holds `[0, 100]` with
limit 1 and window 60; at instant 100 the call rejects, user 2's list `[7]`
is untouched, and user 1's list becomes exactly the young entry `[100]`. -/
theorem c7_frame_witness :
    (((RateLimiter.mk (fun x => if x = 1 then [0, 100] else [7]) 1 60).is_allowed 1 100).2).requests 2
        = [7]
    ∧ (((RateLimiter.mk (fun x => if x = 1 then [0, 100] else [7]) 1 60).is_allowed 1 100).2).requests 1
        = evictOld 100 60 [0, 100]
    ∧ 100 ∈ (((RateLimiter.mk (fun x => if x = 1 then [0, 100] else [7]) 1 60).is_allowed 1 100).2).requests 1 := by
  have h := c7_frame (RateLimiter.mk (fun x => if x = 1 then [0, 100] else [7]) 1 60) 1 2 100
    (by decide)
  have h2 := h.2.2.2 (by decide)
  exact ⟨h.1, h2.1, h2.2.2 100 (by decide) (by decide)⟩

/-! ## Tokens and string helpers

Command names and callback payload tokens are modelled as `List Char`. -/

def startTok : List Char := ['s', 't', 'a', 'r', 't']
def mainTok : List Char := ['m', 'a', 'i', 'n']
def shopTok : List Char := ['s', 'h', 'o', 'p']
def bookingTok : List Char := ['b', 'o', 'o', 'k', 'i', 'n', 'g']
def quizTok : List Char := ['q', 'u', 'i', 'z']
def currencyTok : List Char := ['c', 'u', 'r', 'r', 'e', 'n', 'c', 'y']
def aboutTok : List Char := ['a', 'b', 'o', 'u', 't']
def contactTok : List Char := ['c', 'o', 'n', 't', 'a', 'c', 't']
def adminTok : List Char := ['a', 'd', 'm', 'i', 'n']
def adminStatsTok : List Char := ['a', 'd', 'm', 'i', 'n', '_', 's', 't', 'a', 't', 's']
def cartTok : List Char := ['c', 'a', 'r', 't']
def checkoutTok : List Char := ['c', 'h', 'e', 'c', 'k', 'o', 'u', 't']
def clearCartTok : List Char := ['c', 'l', 'e', 'a', 'r', '_', 'c', 'a', 'r', 't']
def quizStartTok : List Char := ['q', 'u', 'i', 'z', '_', 's', 't', 'a', 'r', 't']
def catPref : List Char := ['c', 'a', 't', '_']
def addPref : List Char := ['a', 'd', 'd', '_']
def bookPref : List Char := ['b', 'o', 'o', 'k', '_']
def timePref : List Char := ['t', 'i', 'm', 'e', '_']
def quizPref : List Char := ['q', 'u', 'i', 'z', '_']

/-- Fuel-indexed scanner for Python `str.replace(old, "")` with
`old = c0 :: pre`: scan left to right, removing every (non-overlapping)
occurrence of `old`.  The fuel only bounds the recursion depth; it is always
called with fuel at least the length of the list, which each step shrinks by
at least one. -/
def stripOccAux (c0 : Char) (pre : List Char) : Nat → List Char → List Char
  | _, [] => []
  | 0, l => l
  | fuel + 1, c :: rest =>
    if c == c0 && pre.isPrefixOf rest then stripOccAux c0 pre fuel (rest.drop pre.length)
    else c :: stripOccAux c0 pre fuel rest

/-- One pass of Python `str.replace(old, "")` with `old = c0 :: pre`. -/
def stripOcc (c0 : Char) (pre : List Char) (s : List Char) : List Char :=
  stripOccAux c0 pre s.length s

/-- Python `token.replace(pat, "")` for a non-empty literal pattern `pat`
(the only way the bot uses `replace`). -/
def replacePy (pat : List Char) (s : List Char) : List Char :=
  match pat with
  | [] => s
  | c :: pre => stripOcc c pre s

def digitVal? (c : Char) : Option Nat :=
  if '0' ≤ c ∧ c ≤ '9' then some (c.toNat - '0'.toNat) else none

def parseDigitsAux : List Char → Nat → Option Nat
  | [], acc => some acc
  | c :: rest, acc =>
    match digitVal? c with
    | some d => parseDigitsAux rest (acc * 10 + d)
    | none => none

/-- Modelled from Python `int(str)` restricted to an optional single sign
followed by decimal digits (the bot only ever feeds it suffixes of callback
tokens); `none` models the `ValueError` raised on malformed input. -/
def parseIntPy : List Char → Option Int
  | [] => none
  | '-' :: rest =>
    if rest = [] then none else (parseDigitsAux rest 0).map (fun n => -(n : Int))
  | '+' :: rest =>
    if rest = [] then none else (parseDigitsAux rest 0).map (fun n => (n : Int))
  | l => (parseDigitsAux l 0).map (fun n => (n : Int))

/-! ## Static catalog data (src/bot.py lines 113-126)

Only the identifier and price fields are retained: names, categories and
descriptions are display text, which is out of scope. -/

def PRODUCTS : List (Int × Nat) := [(1, 999), (2, 1299), (3, 49), (4, 249), (5, 399)]

def SERVICES : List (Int × Nat) := [(1, 1500), (2, 2000), (3, 800), (4, 3500)]

def priceOf (pid : Int) : Option Nat :=
  (PRODUCTS.find? (fun e => e.1 == pid)).map (fun e => e.2)

def servicePriceOf (sid : Int) : Option Nat :=
  (SERVICES.find? (fun e => e.1 == sid)).map (fun e => e.2)

/-! ## DataManager and global bot state (src/bot.py lines 74-130) -/

/-- One entry of `DataManager.user_stats` (the `defaultdict` default is
`{'commands_used': 0, 'last_active': None, 'sessions': 0}`). -/
structure UserStats where
  commands_used : Nat
  last_active : Option Nat
  sessions : Nat
deriving DecidableEq

def UserStats.default0 : UserStats :=
  { commands_used := 0, last_active := none, sessions := 0 }

/-- One booking record appended by `book_time_callback`; the display-text
fields (`service` name, `date` string) are represented by the service id. -/
structure Booking where
  service : Int
  time : List Char
  price : Nat
deriving DecidableEq

/-- The mutable process state: the global `rate_limiter.requests` dict and
the `DataManager` dicts, each as a total function (default value of the
corresponding `defaultdict`) plus the list of materialised keys (Python dict
iteration such as `.values()` ranges over materialised keys only), and the
per-user `context.user_data['booking_service']` slot. -/
structure BotState where
  rlRequests : Nat → List Nat
  usersKeys : List Nat
  carts : Nat → List (Int × Int)
  cartKeys : List Nat
  bookings : Nat → List Booking
  bookingKeys : List Nat
  user_stats : Nat → UserStats
  statsKeys : List Nat
  bookingService : Nat → Option Int

/-- The fresh state at process start. -/
def initState : BotState :=
  { rlRequests := fun _ => []
  , usersKeys := []
  , carts := fun _ => []
  , cartKeys := []
  , bookings := fun _ => []
  , bookingKeys := []
  , user_stats := fun _ => UserStats.default0
  , statsKeys := []
  , bookingService := fun _ => none }

/-- Startup configuration: the parsed `ADMIN_IDS` list. -/
structure Config where
  adminIds : List Nat
deriving DecidableEq

/-- Materialise a key in a Python dict (insertion order, no duplicates). -/
def addKey (k : Nat) (ks : List Nat) : List Nat :=
  if k ∈ ks then ks else ks ++ [k]

/-- `DataManager.add_to_cart` (lines 96-101): increment the quantity if the
product is already in the user's cart, else insert it. -/
def add_to_cart (st : BotState) (u : Nat) (pid : Int) (qty : Int) : BotState :=
  let cart := st.carts u
  let cart' :=
    match (cart.find? (fun e => e.1 == pid)).map (fun e => e.2) with
    | some q0 => cart.map (fun e => if e.1 == pid then (e.1, q0 + qty) else e)
    | none => cart ++ [(pid, qty)]
  { st with carts := fun v => if v = u then cart' else st.carts v
          , cartKeys := addKey u st.cartKeys }

/-- `DataManager.get_cart_total` (lines 103-110): sum `price * quantity`
over the cart entries whose product id is in `PRODUCTS`. -/
def get_cart_total (st : BotState) (u : Nat) : Int :=
  (st.carts u).foldl
    (fun acc e =>
      match priceOf e.1 with
      | some pr => acc + (pr : Int) * e.2
      | none => acc) 0

/-! ## Events, effects and the handler table (src/bot.py lines 802-849) -/

/-- An inbound update: a command message or an inline-button callback query,
carrying the originating user identity and the opaque token. -/
inductive Event where
  | command (user : Nat) (name : List Char)
  | callback (user : Nat) (token : List Char)
deriving DecidableEq

def Event.user : Event → Nat
  | .command u _ => u
  | .callback u _ => u

def Event.token : Event → List Char
  | .command _ n => n
  | .callback _ t => t

/-- The numbers reported by `admin_stats_callback` (lines 743-771). -/
structure StatsView where
  total_users : Nat
  active_users : Nat
  active_carts : Nat
  total_bookings : Nat
  total_commands : Nat
  total_sessions : Nat
deriving DecidableEq

/-- Seconds in the 7-day activity window of `admin_stats_callback`. -/
def WEEK_SECONDS : Nat := 604800

/-- The statistics computed by `admin_stats_callback` from the
`DataManager` dicts at instant `now`. -/
def statsView (st : BotState) (now : Nat) : StatsView :=
  { total_users := st.usersKeys.length
  , active_users :=
      (st.statsKeys.filter (fun k =>
        match (st.user_stats k).last_active with
        | some t => decide (now - WEEK_SECONDS < t)
        | none => false)).length
  , active_carts := (st.cartKeys.filter (fun k => !(st.carts k).isEmpty)).length
  , total_bookings := (st.bookingKeys.map (fun k => (st.bookings k).length)).sum
  , total_commands := (st.statsKeys.map (fun k => (st.user_stats k).commands_used)).sum
  , total_sessions := (st.statsKeys.map (fun k => (st.user_stats k).sessions)).sum }

/-- Which reply text a handler sent, abstracted to a tag plus the
data-relevant payload (literal display text is out of scope). -/
inductive Msg where
  | welcome
  | mainMenuText
  | shopMenu
  | adminPanelText
  | categoryList (cat : List Char)
  | productAdded (pid : Int)
  | productNotFound
  | cartEmptyView
  | cartEmptyAlert
  | cartView (total : Int)
  | orderPlaced (total : Int)
  | cartCleared
  | bookingMenu
  | serviceTimes (sid : Int)
  | bookingConfirmed (sid : Int) (time : List Char)
  | bookingError
  | quizIntro
  | quizQ1
  | quizResult
  | currencyRates
  | aboutText
  | contactText
  | adminStatsText (s : StatsView)
  | noAccessButton
  | noAccessCommand
  | genericError
deriving DecidableEq

/-- Entries written through the logging subsystem by handlers. -/
inductive LogMsg where
  | newUser (uid : Nat)
  | newOrder (uid : Nat) (total : Int)
  | newBooking (uid : Nat) (sid : Int) (time : List Char)
deriving DecidableEq

/-- The outbound side effects of handling one update, in emission order. -/
inductive Effect where
  | answerQuery
  | answerAlert (m : Msg)
  | replyText (m : Msg)
  | sendMessage (m : Msg)
  | editMessage (m : Msg)
  | logInfo (m : LogMsg)
  | logError
deriving DecidableEq

def Effect.isLogEntry : Effect → Bool
  | .logInfo _ => true
  | .logError => true
  | _ => false

/-! ## Handlers (src/bot.py lines 200-783) -/

/-- The handler functions registered in `main()`. -/
inductive Handler where
  | startCmd
  | mainMenu
  | shop
  | booking
  | quiz
  | currency
  | about
  | contact
  | adminPanel
  | adminStats
  | category
  | addToCart
  | viewCart
  | checkout
  | clearCart
  | bookService
  | bookTime
  | quizStart
  | quizAnswer
deriving DecidableEq

/-- The effect trace of an exception escaping a handler after
`query.answer()`: the framework error handler (lines 786-799) logs the
exception and sends a generic apology message. -/
def exceptionEffects : List Effect := [.answerQuery, .logError, .sendMessage .genericError]

/-- `start_command` (lines 200-231): bump sessions, set last activity,
send the welcome reply, log the new user.  `commands_used` is not touched. -/
def start_command (st : BotState) (ev : Event) (now : Nat) : BotState × List Effect :=
  let u := ev.user
  let s0 := st.user_stats u
  ({ st with
      user_stats := fun v =>
        if v = u then { s0 with sessions := s0.sessions + 1, last_active := some now }
        else st.user_stats v
    , statsKeys := addKey u st.statsKeys },
   [.replyText .welcome, .logInfo (.newUser u)])

/-- `main_menu_callback` (lines 233-242). -/
def main_menu_callback (st : BotState) (_ : Event) (_ : Nat) : BotState × List Effect :=
  (st, [.answerQuery, .editMessage .mainMenuText])

/-- `shop_callback` (lines 245-254). -/
def shop_callback (st : BotState) (_ : Event) (_ : Nat) : BotState × List Effect :=
  (st, [.answerQuery, .editMessage .shopMenu])

/-- `category_callback` (lines 256-285): the category is parsed out of the
token by `query.data.replace("cat_", "")`. -/
def category_callback (st : BotState) (ev : Event) (_ : Nat) : BotState × List Effect :=
  (st, [.answerQuery, .editMessage (.categoryList (replacePy catPref ev.token))])

/-- `add_to_cart_callback` (lines 287-307): parse the product id with
`int(query.data.replace("add_", ""))` (a `ValueError` escapes to the error
handler), reject unknown ids before mutating, otherwise add quantity 1. -/
def add_to_cart_callback (st : BotState) (ev : Event) (_ : Nat) : BotState × List Effect :=
  match parseIntPy (replacePy addPref ev.token) with
  | none => (st, exceptionEffects)
  | some pid =>
    match priceOf pid with
    | none => (st, [.answerQuery, .replyText .productNotFound])
    | some _ =>
      (add_to_cart st ev.user pid 1, [.answerQuery, .replyText (.productAdded pid)])

/-- `view_cart_callback` (lines 309-351): read-only (`carts.get`). -/
def view_cart_callback (st : BotState) (ev : Event) (_ : Nat) : BotState × List Effect :=
  if (st.carts ev.user).isEmpty then
    (st, [.answerQuery, .editMessage .cartEmptyView])
  else
    (st, [.answerQuery, .editMessage (.cartView (get_cart_total st ev.user))])

/-- `checkout_callback` (lines 353-391): a zero total aborts with an alert
and no mutation; otherwise the order is logged, the cart is reset to the
empty dict, and a confirmation is shown. -/
def checkout_callback (st : BotState) (ev : Event) (_ : Nat) : BotState × List Effect :=
  let u := ev.user
  let total := get_cart_total st u
  if total = 0 then
    (st, [.answerQuery, .answerAlert .cartEmptyAlert])
  else
    ({ st with carts := fun v => if v = u then [] else st.carts v
             , cartKeys := addKey u st.cartKeys },
     [.answerQuery, .logInfo (.newOrder u total), .editMessage (.orderPlaced total)])

/-- `clear_cart_callback` (lines 393-404). -/
def clear_cart_callback (st : BotState) (ev : Event) (_ : Nat) : BotState × List Effect :=
  ({ st with carts := fun v => if v = ev.user then [] else st.carts v
           , cartKeys := addKey ev.user st.cartKeys },
   [.answerQuery, .editMessage .cartCleared])

/-- `booking_callback` (lines 407-427). -/
def booking_callback (st : BotState) (_ : Event) (_ : Nat) : BotState × List Effect :=
  (st, [.answerQuery, .editMessage .bookingMenu])

/-- `book_service_callback` (lines 429-462): parse the service id from the
token, look it up in `SERVICES` (a `KeyError` escapes to the error handler),
store the choice in the per-user context. -/
def book_service_callback (st : BotState) (ev : Event) (_ : Nat) : BotState × List Effect :=
  match parseIntPy (replacePy bookPref ev.token) with
  | none => (st, exceptionEffects)
  | some sid =>
    match servicePriceOf sid with
    | none => (st, exceptionEffects)
    | some _ =>
      ({ st with bookingService := fun v => if v = ev.user then some sid else st.bookingService v },
       [.answerQuery, .editMessage (.serviceTimes sid)])

/-- `book_time_callback` (lines 464-509): `if not service_id` treats both a
missing slot and the (unreachable in practice) falsy `0` as the error case;
otherwise the booking record is appended and confirmed. -/
def book_time_callback (st : BotState) (ev : Event) (_ : Nat) : BotState × List Effect :=
  let time := replacePy timePref ev.token
  match st.bookingService ev.user with
  | none => (st, [.answerQuery, .editMessage .bookingError])
  | some sid =>
    if sid = 0 then (st, [.answerQuery, .editMessage .bookingError])
    else
      match servicePriceOf sid with
      | none => (st, exceptionEffects)
      | some pr =>
        let u := ev.user
        ({ st with
            bookings := fun v =>
              if v = u then st.bookings u ++ [{ service := sid, time := time, price := pr }]
              else st.bookings v
          , bookingKeys := addKey u st.bookingKeys },
         [.answerQuery, .logInfo (.newBooking u sid time),
          .editMessage (.bookingConfirmed sid time)])

/-- `quiz_callback` (lines 512-534). -/
def quiz_callback (st : BotState) (_ : Event) (_ : Nat) : BotState × List Effect :=
  (st, [.answerQuery, .editMessage .quizIntro])

/-- `quiz_start_callback` (lines 536-568). -/
def quiz_start_callback (st : BotState) (_ : Event) (_ : Nat) : BotState × List Effect :=
  (st, [.answerQuery, .editMessage .quizQ1])

/-- `quiz_answer_callback` (lines 570-605). -/
def quiz_answer_callback (st : BotState) (_ : Event) (_ : Nat) : BotState × List Effect :=
  (st, [.answerQuery, .editMessage .quizResult])

/-- `currency_callback` (lines 608-638). -/
def currency_callback (st : BotState) (_ : Event) (_ : Nat) : BotState × List Effect :=
  (st, [.answerQuery, .editMessage .currencyRates])

/-- `about_callback` (lines 641-682). -/
def about_callback (st : BotState) (_ : Event) (_ : Nat) : BotState × List Effect :=
  (st, [.answerQuery, .editMessage .aboutText])

/-- `contact_callback` (lines 684-727). -/
def contact_callback (st : BotState) (_ : Event) (_ : Nat) : BotState × List Effect :=
  (st, [.answerQuery, .editMessage .contactText])

/-- The body of `admin_callback` (lines 731-740), below the decorator. -/
def admin_callback_body (st : BotState) (_ : Event) (_ : Nat) : BotState × List Effect :=
  (st, [.answerQuery, .editMessage .adminPanelText])

/-- The body of `admin_stats_callback` (lines 743-783), below the
decorator. -/
def admin_stats_callback_body (st : BotState) (_ : Event) (now : Nat) : BotState × List Effect :=
  (st, [.answerQuery, .editMessage (.adminStatsText (statsView st now))])

/-- The `admin_only` decorator (lines 181-197): a non-admin caller gets a
rejection notification on the channel the event arrived on (an ephemeral
alert for a button press, a direct reply for a command) and the wrapped
handler is not invoked.  Nothing is logged on rejection. -/
def admin_only (adminIds : List Nat)
    (body : BotState → Event → Nat → BotState × List Effect)
    (st : BotState) (ev : Event) (now : Nat) : BotState × List Effect :=
  if ev.user ∈ adminIds then body st ev now
  else
    match ev with
    | .callback _ _ => (st, [.answerAlert .noAccessButton])
    | .command _ _ => (st, [.replyText .noAccessCommand])

/-! ## Pattern matching and dispatch (src/bot.py lines 802-849)

`CallbackQueryHandler(h, pattern=p)` matches the callback payload with
`re.match`: the registered patterns are either fully anchored literals
(`"^main$"` — exact equality), anchored literal stems (`"^cat_"` — the token
starts with the stem), or the one character-class pattern
`"^quiz_[a-d]$"` (the stem followed by exactly one of the listed
characters).  Within a handler group the application runs the first
registered handler whose pattern matches. -/
inductive Pat where
  | exact (s : List Char)
  | starts (s : List Char)
  | oneOf (base : List Char) (cs : List Char)
deriving DecidableEq

def Pat.matchesTok : Pat → List Char → Bool
  | .exact s, tok => tok == s
  | .starts s, tok => s.isPrefixOf tok
  | .oneOf base cs, tok => cs.any (fun c => tok == base ++ [c])

/-- The `CallbackQueryHandler` registrations of `main()` (lines 812-835), in
registration order. -/
def callbackTable : List (Pat × Handler) :=
  [ (.exact mainTok, .mainMenu)
  , (.exact shopTok, .shop)
  , (.exact bookingTok, .booking)
  , (.exact quizTok, .quiz)
  , (.exact currencyTok, .currency)
  , (.exact aboutTok, .about)
  , (.exact contactTok, .contact)
  , (.exact adminTok, .adminPanel)
  , (.exact adminStatsTok, .adminStats)
  , (.starts catPref, .category)
  , (.starts addPref, .addToCart)
  , (.exact cartTok, .viewCart)
  , (.exact checkoutTok, .checkout)
  , (.exact clearCartTok, .clearCart)
  , (.starts bookPref, .bookService)
  , (.starts timePref, .bookTime)
  , (.exact quizStartTok, .quizStart)
  , (.oneOf quizPref ['a', 'b', 'c', 'd'], .quizAnswer) ]

/-- First-match-wins selection over a callback handler table. -/
def findHandler (tbl : List (Pat × Handler)) (tok : List Char) : Option Handler :=
  match tbl.find? (fun e => e.1.matchesTok tok) with
  | some e => some e.2
  | none => none

/-- The dispatcher: a command update is matched by the single
`CommandHandler("start", ...)`; a callback update is matched against
`callbackTable`. -/
def dispatch : Event → Option Handler
  | .command _ name => if name == startTok then some Handler.startCmd else none
  | .callback _ tok => findHandler callbackTable tok

/-- Run the (decorator-wrapped, where applicable) handler selected for an
event. -/
def runHandler (cfg : Config) (st : BotState) (ev : Event) (now : Nat) :
    Handler → BotState × List Effect
  | .startCmd => start_command st ev now
  | .mainMenu => main_menu_callback st ev now
  | .shop => shop_callback st ev now
  | .booking => booking_callback st ev now
  | .quiz => quiz_callback st ev now
  | .currency => currency_callback st ev now
  | .about => about_callback st ev now
  | .contact => contact_callback st ev now
  | .adminPanel => admin_only cfg.adminIds admin_callback_body st ev now
  | .adminStats => admin_only cfg.adminIds admin_stats_callback_body st ev now
  | .category => category_callback st ev now
  | .addToCart => add_to_cart_callback st ev now
  | .viewCart => view_cart_callback st ev now
  | .checkout => checkout_callback st ev now
  | .clearCart => clear_cart_callback st ev now
  | .bookService => book_service_callback st ev now
  | .bookTime => book_time_callback st ev now
  | .quizStart => quiz_start_callback st ev now
  | .quizAnswer => quiz_answer_callback st ev now

/-- Process one inbound update: select the handler by pattern and run it.
An unmatched update is dropped by the framework.  No rate-limit check
appears anywhere on this path: the module-level `rate_limiter` object
(line 129) is created but never consulted. -/
def processEvent (cfg : Config) (st : BotState) (ev : Event) (now : Nat) :
    BotState × List Effect :=
  match dispatch ev with
  | some h => runHandler cfg st ev now h
  | none => (st, [])

/-! ## Startup (src/bot.py lines 27-46) -/

/-- Outcome of importing the module: either the uncaught `ValueError` of
line 35 terminates the process (carrying the list of records written
through the logging subsystem before dying — `logging.basicConfig` only runs
at line 38, after the check, and nothing calls the logger before the
`raise`), or the process proceeds to `main()` with the parsed
configuration. -/
inductive StartupOutcome where
  | fatalError (loggedErrors : List Effect)
  | started (cfg : Config)
deriving DecidableEq

/-- Lines 30-35: `BOT_TOKEN = os.getenv('BOT_TOKEN')` followed by
`if not BOT_TOKEN: raise ValueError(...)` — both a missing and an empty
token are falsy and abort; nothing is written through the logging
subsystem on this path. -/
def moduleInit (botToken : Option (List Char)) (adminIds : List Nat) : StartupOutcome :=
  match botToken with
  | none => .fatalError []
  | some t => if t = [] then .fatalError [] else .started { adminIds := adminIds }

def startupLoggedErrors : StartupOutcome → List Effect
  | .fatalError logs => logs
  | .started _ => []

/-! ## Frame lemmas for the dispatch pipeline -/

theorem processEvent_rlRequests (cfg : Config) (st : BotState) (ev : Event) (now : Nat) :
    (processEvent cfg st ev now).1.rlRequests = st.rlRequests := by
  unfold processEvent
  cases hd : dispatch ev with
  | none => rfl
  | some hh =>
    cases hh <;>
      simp only [runHandler, start_command, main_menu_callback, shop_callback, booking_callback,
        quiz_callback, currency_callback, about_callback, contact_callback, admin_only,
        admin_callback_body, admin_stats_callback_body, category_callback, add_to_cart_callback,
        view_cart_callback, checkout_callback, clear_cart_callback, book_service_callback,
        book_time_callback, quiz_start_callback, quiz_answer_callback, add_to_cart] <;>
      (repeat' split) <;> rfl

theorem findHandler_ne_start (tok : List Char) :
    findHandler callbackTable tok ≠ some Handler.startCmd := by
  unfold findHandler
  cases hf : callbackTable.find? (fun e => e.1.matchesTok tok) with
  | none => simp
  | some e =>
    have hmem := List.mem_of_find?_eq_some hf
    intro hcontra
    simp only [Option.some.injEq] at hcontra
    fin_cases hmem <;> simp_all

theorem processEvent_commands_used (cfg : Config) (st : BotState) (ev : Event) (now u : Nat) :
    ((processEvent cfg st ev now).1.user_stats u).commands_used
      = (st.user_stats u).commands_used := by
  unfold processEvent
  cases hd : dispatch ev with
  | none => rfl
  | some hh =>
    cases hh
    case startCmd =>
      simp only [runHandler, start_command]
      by_cases hv : u = ev.user
      · subst hv; simp
      · simp [hv]
    all_goals
      simp only [runHandler, main_menu_callback, shop_callback, booking_callback,
        quiz_callback, currency_callback, about_callback, contact_callback, admin_only,
        admin_callback_body, admin_stats_callback_body, category_callback, add_to_cart_callback,
        view_cart_callback, checkout_callback, clear_cart_callback, book_service_callback,
        book_time_callback, quiz_start_callback, quiz_answer_callback, add_to_cart] <;>
      (repeat' split) <;> rfl

theorem processEvent_callback_user_stats (cfg : Config) (st : BotState) (u now : Nat)
    (tok : List Char) :
    (processEvent cfg st (.callback u tok) now).1.user_stats = st.user_stats := by
  unfold processEvent
  cases hd : dispatch (Event.callback u tok) with
  | none => rfl
  | some hh =>
    cases hh
    case startCmd => exact absurd hd (findHandler_ne_start tok)
    all_goals
      simp only [runHandler, main_menu_callback, shop_callback, booking_callback,
        quiz_callback, currency_callback, about_callback, contact_callback, admin_only,
        admin_callback_body, admin_stats_callback_body, category_callback, add_to_cart_callback,
        view_cart_callback, checkout_callback, clear_cart_callback, book_service_callback,
        book_time_callback, quiz_start_callback, quiz_answer_callback, add_to_cart] <;>
      (repeat' split) <;> rfl

/-! ## Claim theorems for the dispatcher -/

/-- The module-level `rate_limiter = RateLimiter()` of line 129, with the
constructor defaults `max_requests=10`, `time_window=60`, over the stored
request dict. -/
def globalRateLimiter (st : BotState) : RateLimiter :=
  { requests := st.rlRequests, max_requests := 10, time_window := 60 }

/-- A state in which user 7 already holds 10 request instants, so that the
global rate limiter would reject user 7 at instant 0. -/
def rateLimitedState : BotState :=
  { initState with rlRequests := fun v => if v = 7 then List.replicate 10 0 else [] }

/-- C3 (demonstrating the code bug): the module-level rate limiter would
reject user 7 (`is_allowed` returns `false`), yet dispatching user 7's
`"main"` button press still executes the handler body (the main-menu edit is
emitted) — and in fact no dispatch path ever consults or updates the rate
limiter state, because `rate_limiter` is created at line 129 and never used
again. -/
theorem c3_rate_limiter_never_consulted :
    ((globalRateLimiter rateLimitedState).is_allowed 7 0).1 = false
    ∧ processEvent { adminIds := [1] } rateLimitedState (.callback 7 mainTok) 0
        = (rateLimitedState, [.answerQuery, .editMessage .mainMenuText])
    ∧ (∀ (cfg : Config) (st : BotState) (ev : Event) (now : Nat),
        (processEvent cfg st ev now).1.rlRequests = st.rlRequests) :=
  ⟨by decide, rfl, processEvent_rlRequests⟩

/-- C6 (demonstrating the code bug): dispatching the `"main"` button press
for user 5 reaches the handler (its edit is emitted) but leaves the usage
statistics at their defaults; even `/start` only bumps `sessions` and
`last_active`, never `commands_used`; no handler on any path ever changes
`commands_used`, a callback update never changes `user_stats` at all, and
the commands figure shown by the admin statistics view is exactly the sum of
these never-incremented counters. -/
theorem c6_stats_never_updated :
    processEvent { adminIds := [1] } initState (.callback 5 mainTok) 3
        = (initState, [.answerQuery, .editMessage .mainMenuText])
    ∧ ((processEvent { adminIds := [1] } initState (.callback 5 mainTok) 3).1.user_stats 5)
        = UserStats.default0
    ∧ ((processEvent { adminIds := [1] } initState (.command 5 startTok) 3).1.user_stats 5)
        = { commands_used := 0, last_active := some 3, sessions := 1 }
    ∧ (∀ (cfg : Config) (st : BotState) (ev : Event) (now u : Nat),
        ((processEvent cfg st ev now).1.user_stats u).commands_used
          = (st.user_stats u).commands_used)
    ∧ (∀ (cfg : Config) (st : BotState) (u now : Nat) (tok : List Char),
        (processEvent cfg st (.callback u tok) now).1.user_stats = st.user_stats)
    ∧ (∀ (st : BotState) (now : Nat),
        (statsView st now).total_commands
          = (st.statsKeys.map (fun k => (st.user_stats k).commands_used)).sum) :=
  ⟨rfl, by decide, by decide, processEvent_commands_used,
    processEvent_callback_user_stats, fun _ _ => rfl⟩

/-- C4 counterexample: a non-admin (user 2, allow-list `[1]`) pressing the
admin button is rejected with the ephemeral alert, but — contrary to the
claim — the interaction produces no log entry at all: the effect trace is
exactly the alert, with not a single logging effect in it. -/
theorem c4_no_unauthorized_logging :
    processEvent { adminIds := [1] } initState (.callback 2 adminTok) 0
        = (initState, [.answerAlert .noAccessButton])
    ∧ ((processEvent { adminIds := [1] } initState (.callback 2 adminTok) 0).2.all
        (fun e => !e.isLogEntry)) = true :=
  ⟨rfl, by decide⟩

/-- The rejection notification `admin_only` sends on the channel the event
arrived on: an ephemeral alert for a button press, a direct reply for a
command. -/
def rejectionEffects : Event → List Effect
  | .callback _ _ => [.answerAlert .noAccessButton]
  | .command _ _ => [.replyText .noAccessCommand]

/-- C4 (amended): for every non-admin identity, `admin_only` never invokes
the wrapped handler body — the state is returned untouched and the only
effect is the rejection notification on the channel the event arrived on
(ephemeral alert for a button press, direct reply for a command); no log
entry is written.  Through the dispatcher, both admin-flagged tokens
short-circuit the same way. -/
theorem c4_admin_gate (adminIds : List Nat)
    (body : BotState → Event → Nat → BotState × List Effect)
    (st : BotState) (ev : Event) (now : Nat)
    (h : ev.user ∉ adminIds) :
    admin_only adminIds body st ev now = (st, rejectionEffects ev)
    ∧ ((admin_only adminIds body st ev now).2.all (fun e => !e.isLogEntry)) = true
    ∧ (∀ (cfg : Config) (st' : BotState) (now' : Nat), ev.user ∉ cfg.adminIds →
        processEvent cfg st' (.callback ev.user adminTok) now'
            = (st', [.answerAlert .noAccessButton])
        ∧ processEvent cfg st' (.callback ev.user adminStatsTok) now'
            = (st', [.answerAlert .noAccessButton])) := by
  have hbase : ∀ (ids : List Nat) (b : BotState → Event → Nat → BotState × List Effect)
      (s : BotState) (e : Event) (n : Nat), e.user ∉ ids →
      admin_only ids b s e n = (s, rejectionEffects e) := by
    intro ids b s e n he
    unfold admin_only
    rw [if_neg he]
    cases e <;> rfl
  refine ⟨hbase adminIds body st ev now h, ?_, ?_⟩
  · rw [hbase adminIds body st ev now h]
    cases ev <;> rfl
  · intro cfg st' now' h'
    constructor
    · show admin_only cfg.adminIds admin_callback_body st' (.callback ev.user adminTok) now' = _
      rw [hbase cfg.adminIds admin_callback_body st' (.callback ev.user adminTok) now' h']
      rfl
    · show admin_only cfg.adminIds admin_stats_callback_body st'
          (.callback ev.user adminStatsTok) now' = _
      rw [hbase cfg.adminIds admin_stats_callback_body st' (.callback ev.user adminStatsTok) now' h']
      rfl

/-- Witness for the amended C4 at user 2 against allow-list `[1]`. -/
theorem c4_admin_gate_witness :
    admin_only [1] admin_callback_body initState (.callback 2 adminTok) 0
        = (initState, [Effect.answerAlert Msg.noAccessButton])
    ∧ processEvent { adminIds := [1] } initState (.callback 2 adminStatsTok) 5
        = (initState, [.answerAlert .noAccessButton]) := by
  have h := c4_admin_gate [1] admin_callback_body initState (.callback 2 adminTok) 0 (by decide)
  exact ⟨h.1, (h.2.2 { adminIds := [1] } initState 5 (by decide)).2⟩

/-- C8: for a user whose cart mapping is empty, checkout computes a zero
total, aborts with the empty-cart alert, and performs no state mutation at
all — the resulting state is the input state itself. -/
theorem c8_empty_cart_checkout (cfg : Config) (st : BotState) (u now : Nat)
    (h : st.carts u = []) :
    get_cart_total st u = 0
    ∧ processEvent cfg st (.callback u checkoutTok) now
        = (st, [.answerQuery, .answerAlert .cartEmptyAlert]) := by
  have htot : get_cart_total st u = 0 := by
    unfold get_cart_total
    rw [h]
    rfl
  refine ⟨htot, ?_⟩
  show checkout_callback st (.callback u checkoutTok) now = _
  unfold checkout_callback
  simp [Event.user, htot]

/-- Witness for C8 on the fresh state for user 9. -/
theorem c8_empty_cart_checkout_witness :
    get_cart_total initState 9 = 0
    ∧ processEvent { adminIds := [] } initState (.callback 9 checkoutTok) 0
        = (initState, [.answerQuery, .answerAlert .cartEmptyAlert]) :=
  c8_empty_cart_checkout { adminIds := [] } initState 9 0 rfl

/-- C9 counterexample: with the token absent the startup path is fatal, but
— contrary to the claim that the failure "is reported as a logged error" —
the list of records written through the logging subsystem is empty: the
`raise` at line 35 happens before `logging.basicConfig` (line 38) and no
logger call is made. -/
theorem c9_no_startup_logging :
    moduleInit none [] = StartupOutcome.fatalError []
    ∧ startupLoggedErrors (moduleInit none []) = [] :=
  ⟨rfl, rfl⟩

/-- C9 (amended): a missing (or empty, both falsy in Python) access token
makes startup fail fatally with an uncaught `ValueError` before any handler
registration or event processing — no started configuration is ever
produced — but nothing is written through the logging subsystem. -/
theorem c9_missing_token_fatal (tok : Option (List Char)) (adminIds : List Nat)
    (h : tok = none ∨ tok = some []) :
    moduleInit tok adminIds = .fatalError []
    ∧ startupLoggedErrors (moduleInit tok adminIds) = []
    ∧ (∀ cfg, moduleInit tok adminIds ≠ .started cfg) := by
  rcases h with rfl | rfl
  · exact ⟨rfl, rfl, fun cfg => by simp [moduleInit]⟩
  · exact ⟨by simp [moduleInit], by simp [moduleInit, startupLoggedErrors],
      fun cfg => by simp [moduleInit]⟩

/-- Witness for the amended C9 with an empty token string. -/
theorem c9_missing_token_fatal_witness :
    moduleInit (some []) [3] = .fatalError []
    ∧ startupLoggedErrors (moduleInit (some []) [3]) = [] :=
  ⟨(c9_missing_token_fatal (some []) [3] (Or.inr rfl)).1,
    (c9_missing_token_fatal (some []) [3] (Or.inr rfl)).2.1⟩

/-! ## The cart invariant (C10) -/

/-- Every entry of every user's cart mapping carries a product id present in
`PRODUCTS` and a quantity of at least 1. -/
def CartInv (st : BotState) : Prop :=
  ∀ (u : Nat) (p q : Int), (p, q) ∈ st.carts u → (priceOf p).isSome ∧ 1 ≤ q

theorem CartInv_clear (st : BotState) (u : Nat) (h : CartInv st) :
    CartInv { st with carts := fun v => if v = u then [] else st.carts v
                    , cartKeys := addKey u st.cartKeys } := by
  intro v p q hmem
  dsimp only at hmem
  by_cases hv : v = u
  · rw [if_pos hv] at hmem
    simp at hmem
  · rw [if_neg hv] at hmem
    exact h v p q hmem

theorem CartInv_add_to_cart (st : BotState) (u : Nat) (pid : Int)
    (hpid : (priceOf pid).isSome) (h : CartInv st) :
    CartInv (add_to_cart st u pid 1) := by
  intro v p q hmem
  unfold add_to_cart at hmem
  dsimp only at hmem
  by_cases hv : v = u
  · rw [if_pos hv] at hmem
    cases hfind : (st.carts u).find? (fun e => e.1 == pid) with
    | none =>
      rw [hfind] at hmem
      simp only [Option.map_none'] at hmem
      rcases List.mem_append.mp hmem with h1 | h1
      · exact h u p q h1
      · simp at h1
        rcases h1 with ⟨rfl, rfl⟩
        exact ⟨hpid, le_refl 1⟩
    | some e0 =>
      rw [hfind] at hmem
      simp only [Option.map_some'] at hmem
      have he0mem : e0 ∈ st.carts u := List.mem_of_find?_eq_some hfind
      have he0q : 1 ≤ e0.2 := (h u e0.1 e0.2 he0mem).2
      rcases List.mem_map.mp hmem with ⟨e1, he1mem, he1eq⟩
      by_cases hep : e1.1 == pid
      · rw [if_pos hep] at he1eq
        have hp := congrArg Prod.fst he1eq
        have hq := congrArg Prod.snd he1eq
        simp only at hp hq
        constructor
        · rw [← hp]
          exact (h u e1.1 e1.2 he1mem).1
        · omega
      · rw [if_neg hep] at he1eq
        subst he1eq
        exact h u p q he1mem
  · rw [if_neg hv] at hmem
    exact h v p q hmem

/-- C10: every dispatch preserves the cart invariant: the add-to-cart
callback validates the product id before mutating and only ever adds or
increments with quantity 1, and checkout / clear-cart replace the cart with
the empty mapping; no other handler touches the carts. -/
theorem c10_cart_invariant (cfg : Config) (st : BotState) (ev : Event) (now : Nat)
    (h : CartInv st) :
    CartInv (processEvent cfg st ev now).1 := by
  unfold processEvent
  cases hd : dispatch ev with
  | none => exact h
  | some hh =>
    cases hh
    case addToCart =>
      show CartInv (add_to_cart_callback st ev now).1
      unfold add_to_cart_callback
      split
      · exact h
      · split
        · exact h
        · rename_i scrA pid hparse scrB pr hpr
          exact CartInv_add_to_cart st ev.user pid (by rw [hpr]; rfl) h
    case checkout =>
      show CartInv (checkout_callback st ev now).1
      unfold checkout_callback
      dsimp only
      split
      · exact h
      · exact CartInv_clear st ev.user h
    case clearCart =>
      exact CartInv_clear st ev.user h
    case viewCart =>
      show CartInv (view_cart_callback st ev now).1
      unfold view_cart_callback
      split <;> exact h
    case bookService =>
      show CartInv (book_service_callback st ev now).1
      unfold book_service_callback
      split
      · exact h
      · split
        · exact h
        · exact h
    case bookTime =>
      show CartInv (book_time_callback st ev now).1
      unfold book_time_callback
      dsimp only
      split
      · exact h
      · split
        · exact h
        · split
          · exact h
          · exact h
    case adminPanel =>
      show CartInv (admin_only cfg.adminIds admin_callback_body st ev now).1
      unfold admin_only
      split
      · exact h
      · split <;> exact h
    case adminStats =>
      show CartInv (admin_only cfg.adminIds admin_stats_callback_body st ev now).1
      unfold admin_only
      split
      · exact h
      · split <;> exact h
    all_goals exact h

/-- Witness for C10: from the fresh state (vacuously satisfying the
invariant), adding product 3 preserves the invariant; the resulting cart is
`[(3, 1)]`. -/
theorem c10_cart_invariant_witness :
    CartInv (processEvent { adminIds := [] } initState (.callback 4 (addPref ++ ['3'])) 0).1
    ∧ (processEvent { adminIds := [] } initState (.callback 4 (addPref ++ ['3'])) 0).1.carts 4
        = [(3, 1)] :=
  ⟨c10_cart_invariant { adminIds := [] } initState (.callback 4 (addPref ++ ['3'])) 0
      (fun u p q hmem => absurd hmem (List.not_mem_nil _)),
    by decide⟩

/-! ## Suffix parsing and routing lemmas (C5) -/

theorem isPrefixOf_cons_cons (a b : Char) (as bs : List Char) :
    (a :: as).isPrefixOf (b :: bs) = (a == b && as.isPrefixOf bs) := rfl

theorem isPrefixOf_append_self (p s : List Char) : p.isPrefixOf (p ++ s) = true := by
  induction p with
  | nil => cases s <;> rfl
  | cons c cs ih =>
    rw [List.cons_append, isPrefixOf_cons_cons, ih]
    simp

theorem stripOccAux_no_occ (c0 : Char) (pre : List Char) :
    ∀ (fuel : Nat) (s : List Char), s.length ≤ fuel →
      (∀ i, i ≤ s.length → (c0 :: pre).isPrefixOf (s.drop i) = false) →
      stripOccAux c0 pre fuel s = s := by
  intro fuel
  induction fuel with
  | zero =>
    intro s hle _
    cases s with
    | nil => rfl
    | cons c rest => simp at hle
  | succ fuel ih =>
    intro s hle hno
    cases s with
    | nil => rfl
    | cons c rest =>
      have h0 : (c0 :: pre).isPrefixOf (c :: rest) = false := by
        simpa using hno 0 (Nat.zero_le _)
      rw [isPrefixOf_cons_cons] at h0
      have hcond : (c == c0 && pre.isPrefixOf rest) = false := by
        cases hcc : (c == c0) with
        | false => simp [hcc]
        | true =>
          have hceq : c = c0 := by simpa using hcc
          subst hceq
          simpa using h0
      show (if (c == c0 && pre.isPrefixOf rest) = true
            then stripOccAux c0 pre fuel (rest.drop pre.length)
            else c :: stripOccAux c0 pre fuel rest) = c :: rest
      rw [hcond]
      simp only [Bool.false_eq_true, if_false]
      congr 1
      apply ih
      · simp only [List.length_cons] at hle
        omega
      · intro i hi
        have := hno (i + 1) (by simp only [List.length_cons]; omega)
        simpa using this

theorem stripOcc_strips (c0 : Char) (pre : List Char) (s : List Char)
    (hno : ∀ i, i ≤ s.length → (c0 :: pre).isPrefixOf (s.drop i) = false) :
    stripOcc c0 pre ((c0 :: pre) ++ s) = s := by
  show stripOccAux c0 pre ((c0 :: pre) ++ s).length ((c0 :: pre) ++ s) = s
  have hlen : ((c0 :: pre) ++ s).length = (pre.length + s.length) + 1 := by
    simp [List.length_append]
  rw [hlen]
  show (if (c0 == c0 && pre.isPrefixOf (pre ++ s)) = true
        then stripOccAux c0 pre (pre.length + s.length) ((pre ++ s).drop pre.length)
        else c0 :: stripOccAux c0 pre (pre.length + s.length) (pre ++ s)) = s
  rw [show (c0 == c0 && pre.isPrefixOf (pre ++ s)) = true by simp [isPrefixOf_append_self]]
  simp only [if_true]
  rw [List.drop_left]
  exact stripOccAux_no_occ c0 pre (pre.length + s.length) s (by omega) hno

theorem listCharBeq_cons_cons (a b : Char) (as bs : List Char) :
    ((a :: as) == (b :: bs)) = (a == b && as == bs) := rfl

theorem find?_eq_of_unique {α : Type} (l l' : List α) (p : α → Bool) (e : α)
    (hperm : l'.Perm l) (he : e ∈ l) (hpe : p e = true)
    (huniq : ∀ x ∈ l, p x = true → x = e) : l'.find? p = some e := by
  cases hfind : l'.find? p with
  | none =>
    exfalso
    exact (List.find?_eq_none.mp hfind e (hperm.mem_iff.mpr he)) hpe
  | some y =>
    have hy : p y = true := List.find?_some hfind
    have hmem : y ∈ l' := List.mem_of_find?_eq_some hfind
    rw [huniq y (hperm.subset hmem) hy]

theorem findHandler_cat (s : List Char) :
    findHandler callbackTable (catPref ++ s) = some Handler.category := by
  simp [findHandler, callbackTable, Pat.matchesTok, List.find?, mainTok, shopTok, bookingTok,
    quizTok, currencyTok, aboutTok, contactTok, adminTok, adminStatsTok, cartTok, checkoutTok,
    clearCartTok, quizStartTok, catPref, addPref, bookPref, timePref, quizPref,
    listCharBeq_cons_cons, isPrefixOf_cons_cons, isPrefixOf_append_self]

theorem findHandler_add (s : List Char) :
    findHandler callbackTable (addPref ++ s) = some Handler.addToCart := by
  simp [findHandler, callbackTable, Pat.matchesTok, List.find?, mainTok, shopTok, bookingTok,
    quizTok, currencyTok, aboutTok, contactTok, adminTok, adminStatsTok, cartTok, checkoutTok,
    clearCartTok, quizStartTok, catPref, addPref, bookPref, timePref, quizPref,
    listCharBeq_cons_cons, isPrefixOf_cons_cons, isPrefixOf_append_self]

theorem findHandler_book (s : List Char) :
    findHandler callbackTable (bookPref ++ s) = some Handler.bookService := by
  simp [findHandler, callbackTable, Pat.matchesTok, List.find?, mainTok, shopTok, bookingTok,
    quizTok, currencyTok, aboutTok, contactTok, adminTok, adminStatsTok, cartTok, checkoutTok,
    clearCartTok, quizStartTok, catPref, addPref, bookPref, timePref, quizPref,
    listCharBeq_cons_cons, isPrefixOf_cons_cons, isPrefixOf_append_self]

theorem findHandler_time (s : List Char) :
    findHandler callbackTable (timePref ++ s) = some Handler.bookTime := by
  simp [findHandler, callbackTable, Pat.matchesTok, List.find?, mainTok, shopTok, bookingTok,
    quizTok, currencyTok, aboutTok, contactTok, adminTok, adminStatsTok, cartTok, checkoutTok,
    clearCartTok, quizStartTok, catPref, addPref, bookPref, timePref, quizPref,
    listCharBeq_cons_cons, isPrefixOf_cons_cons, isPrefixOf_append_self]

/-- C5: a token equal to a registered exact pattern routes to that exact
handler under every permutation of the registered table (in particular,
regardless of registration order and of the registered stem patterns);
tokens carrying one of the registered stems route to the stem handler for
every suffix; and the category handler parses the variable suffix back out
of the token itself (for any suffix not containing the stem, which is what
`str.replace` deletes). -/
theorem c5_routing :
    (∀ (tbl : List (Pat × Handler)), tbl.Perm callbackTable →
      (findHandler tbl mainTok = some Handler.mainMenu
        ∧ findHandler tbl shopTok = some Handler.shop
        ∧ findHandler tbl bookingTok = some Handler.booking
        ∧ findHandler tbl quizTok = some Handler.quiz
        ∧ findHandler tbl currencyTok = some Handler.currency
        ∧ findHandler tbl aboutTok = some Handler.about
        ∧ findHandler tbl contactTok = some Handler.contact
        ∧ findHandler tbl adminTok = some Handler.adminPanel
        ∧ findHandler tbl adminStatsTok = some Handler.adminStats
        ∧ findHandler tbl cartTok = some Handler.viewCart
        ∧ findHandler tbl checkoutTok = some Handler.checkout
        ∧ findHandler tbl clearCartTok = some Handler.clearCart
        ∧ findHandler tbl quizStartTok = some Handler.quizStart))
    ∧ (∀ (u : Nat) (s : List Char),
        dispatch (.callback u (catPref ++ s)) = some Handler.category
        ∧ dispatch (.callback u (addPref ++ s)) = some Handler.addToCart
        ∧ dispatch (.callback u (bookPref ++ s)) = some Handler.bookService
        ∧ dispatch (.callback u (timePref ++ s)) = some Handler.bookTime)
    ∧ (∀ (cfg : Config) (st : BotState) (u now : Nat) (s : List Char),
        (∀ i, i ≤ s.length → catPref.isPrefixOf (s.drop i) = false) →
        processEvent cfg st (.callback u (catPref ++ s)) now
          = (st, [.answerQuery, .editMessage (.categoryList s)])) := by
  refine ⟨?_, ?_, ?_⟩
  · intro tbl hperm
    have key : ∀ (pa : Pat) (hh : Handler) (tok : List Char), (pa, hh) ∈ callbackTable →
        pa.matchesTok tok = true →
        (∀ x ∈ callbackTable, x.1.matchesTok tok = true → x = (pa, hh)) →
        findHandler tbl tok = some hh := by
      intro pa hh tok hmem hmatch huniq
      unfold findHandler
      rw [find?_eq_of_unique callbackTable tbl (fun e => e.1.matchesTok tok) (pa, hh)
        hperm hmem hmatch huniq]
    exact ⟨key (.exact mainTok) .mainMenu mainTok (by decide) (by decide) (by decide),
      key (.exact shopTok) .shop shopTok (by decide) (by decide) (by decide),
      key (.exact bookingTok) .booking bookingTok (by decide) (by decide) (by decide),
      key (.exact quizTok) .quiz quizTok (by decide) (by decide) (by decide),
      key (.exact currencyTok) .currency currencyTok (by decide) (by decide) (by decide),
      key (.exact aboutTok) .about aboutTok (by decide) (by decide) (by decide),
      key (.exact contactTok) .contact contactTok (by decide) (by decide) (by decide),
      key (.exact adminTok) .adminPanel adminTok (by decide) (by decide) (by decide),
      key (.exact adminStatsTok) .adminStats adminStatsTok (by decide) (by decide) (by decide),
      key (.exact cartTok) .viewCart cartTok (by decide) (by decide) (by decide),
      key (.exact checkoutTok) .checkout checkoutTok (by decide) (by decide) (by decide),
      key (.exact clearCartTok) .clearCart clearCartTok (by decide) (by decide) (by decide),
      key (.exact quizStartTok) .quizStart quizStartTok (by decide) (by decide) (by decide)⟩
  · intro u s
    exact ⟨findHandler_cat s, findHandler_add s, findHandler_book s, findHandler_time s⟩
  · intro cfg st u now s hno
    have hdisp : dispatch (.callback u (catPref ++ s)) = some Handler.category :=
      findHandler_cat s
    have hstrip : replacePy catPref (catPref ++ s) = s :=
      stripOcc_strips 'c' ['a', 't', '_'] s hno
    unfold processEvent
    rw [hdisp]
    show (st, [Effect.answerQuery,
      Effect.editMessage (Msg.categoryList (replacePy catPref (catPref ++ s)))]) = _
    rw [hstrip]

/-- Witness for C5: the exact token `"main"` routes to the main-menu handler
in the registered table itself, and the stem token `"cat_X"` routes to the
category handler, which parses out the suffix `"X"`. -/
theorem c5_routing_witness :
    findHandler callbackTable mainTok = some Handler.mainMenu
    ∧ dispatch (.callback 7 (catPref ++ ['X'])) = some Handler.category
    ∧ processEvent { adminIds := [] } initState (.callback 7 (catPref ++ ['X'])) 0
        = (initState, [.answerQuery, .editMessage (.categoryList ['X'])]) :=
  ⟨(c5_routing.1 callbackTable (List.Perm.refl _)).1,
    (c5_routing.2.1 7 ['X']).1,
    c5_routing.2.2 { adminIds := [] } initState 7 0 ['X'] (by decide)⟩
